import Mathlib

set_option autoImplicit false

/-
Shallow embedding of the sweetify-backend core (catalog purchase/restock,
cart normalization and merge/replace, DB-availability gate, connection
backoff, and stock redaction), translated from:
  src/src/app.js            (sweetRoutes: purchase, restock, redaction, admin check)
  src/unnamed/part_000      (app.js: dbConnected flag, /api gate, connectWithRetry)
  src/unnamed/part_002      (cartRoutes: normalizePayload, POST /, PUT /)
-/

namespace Sweetify

/-- Model of a JavaScript value as it can appear in a JSON request-body field.
A string is represented by its two observable attributes here: whether it is
empty (JS truthiness) and its `Number(...)` coercion (`none` models NaN). -/
inductive JVal where
  | absent
  | jnull
  | jnum (n : Int)
  | jstr (empty : Bool) (numv : Option Int)
  | jbool (b : Bool)
  | jobj
  deriving DecidableEq, Repr

/-- JS truthiness of a value. -/
def JVal.truthy : JVal → Bool
  | .absent => false
  | .jnull => false
  | .jnum n => n != 0
  | .jstr empty _ => !empty
  | .jbool b => b
  | .jobj => true

/-- JS `Number(v)`; `none` models NaN. -/
def JVal.toNumber : JVal → Option Int
  | .absent => none
  | .jnull => some 0
  | .jnum n => some n
  | .jstr empty numv => if empty then some 0 else numv
  | .jbool b => some (if b then 1 else 0)
  | .jobj => none

/-- JS `a || b` on values. -/
def jsOr (a b : JVal) : JVal := if a.truthy then a else b

/-! ## InventoryLedger: POST /:id/purchase and POST /:id/restock (src/src/app.js) -/

/-- Outcome of the purchase route handler. -/
inductive PurchaseResult where
  | ok (stock : Int) (purchasedQuantity : Int)
  | badQuantity
  | insufficientStock (available : Int)
  | notFound
  deriving DecidableEq, Repr

/-- `const { quantity = 1 } = req.body; const qty = Number(quantity) || 1;`
The destructuring default fires when the field is undefined; `|| 1` replaces
NaN and 0 by 1. -/
def purchaseQty (quantity : JVal) : Int :=
  let q := if quantity = JVal.absent then JVal.jnum 1 else quantity
  match q.toNumber with
  | none => 1
  | some v => if v = 0 then 1 else v

/-- The atomic conditional write
`findOneAndUpdate({_id, stock: {$gte: qty}}, {$inc: {stock: -qty}})`
on one item: returns the new stock and whether the condition matched. -/
def purchaseStep (s : Int) (qty : Int) : Int × Bool :=
  if qty ≤ s then (s - qty, true) else (s, false)

/-- The purchase route handler on one item's stock (`none` = item absent):
validates the coerced quantity, performs the conditional decrement, and on a
missed condition re-reads to distinguish NotFound from InsufficientStock. -/
def purchaseHandler (stock : Option Int) (quantity : JVal) :
    PurchaseResult × Option Int :=
  let qty := purchaseQty quantity
  if qty ≤ 0 then (.badQuantity, stock)
  else
    match stock with
    | some s =>
        let step := purchaseStep s qty
        if step.2 then (.ok step.1 qty, some step.1)
        else (.insufficientStock s, some s)
    | none => (.notFound, none)

/-- Final stock after a sequence of conditional purchase writes. -/
def runPurchases : Int → List Int → Int
  | s, [] => s
  | s, q :: qs => runPurchases (purchaseStep s q).1 qs

/-- Quantities of the purchases that hit their condition in a sequence. -/
def successfulQuantities : Int → List Int → List Int
  | _, [] => []
  | s, q :: qs =>
      if (purchaseStep s q).2 then q :: successfulQuantities (purchaseStep s q).1 qs
      else successfulQuantities (purchaseStep s q).1 qs

/-- Every stock value observable by a reader during a sequence of purchases:
the value before each write and the final value. -/
def stockObservations : Int → List Int → List Int
  | s, [] => [s]
  | s, q :: qs => s :: stockObservations (purchaseStep s q).1 qs

/-- All entries of an integer list are nonnegative. -/
def allNonneg (l : List Int) : Bool := l.all (fun x => decide (0 ≤ x))

/-- Outcome of the restock route handler. -/
inductive RestockResult where
  | ok (stock : Int)
  | invalidQuantity
  | notFound
  deriving DecidableEq, Repr

/-- The restock route handler:
`if (!quantity || isNaN(qty) || qty <= 0)` rejects before storage, then
`findByIdAndUpdate(id, {$inc: {stock: qty}})`. -/
def restockHandler (stock : Option Int) (quantity : JVal) :
    RestockResult × Option Int :=
  if !quantity.truthy then (.invalidQuantity, stock)
  else
    match quantity.toNumber with
    | none => (.invalidQuantity, stock)
    | some qty =>
        if qty ≤ 0 then (.invalidQuantity, stock)
        else
          match stock with
          | some s => (.ok (s + qty), some (s + qty))
          | none => (.notFound, none)

/-! ## AvailabilityGate and ConnectionSupervisor (src/unnamed/part_000) -/

/-- Response of a request passing through the `/api` availability middleware. -/
inductive GateResp (ρ : Type) where
  | serviceUnavailable (message : String)
  | handled (r : ρ)
  deriving DecidableEq, Repr

/-- The 503 message of the `/api` middleware. -/
def dbUnavailableMessage : String :=
  "Service temporarily unavailable — database not connected. Please try again in a moment."

/-- The `/api` middleware: when `dbConnected` is false it answers 503 without
running the route handler (`call`); otherwise it calls `next()` and the route
handler runs on the storage state. -/
def apiGate {σ ρ : Type} (dbConnected : Bool) (call : σ → ρ × σ) (st : σ) :
    GateResp ρ × σ :=
  if dbConnected then
    let out := call st
    (.handled out.1, out.2)
  else (.serviceUnavailable dbUnavailableMessage, st)

/-- `baseDelay` of `connectWithRetry` (ms). -/
def baseDelay : Nat := 2000

/-- The backoff cap of `connectWithRetry` (ms):
`Math.min(baseDelay * Math.pow(2, attempt - 1), 60000)`. -/
def capDelay : Nat := 60000

/-- Upper bound of `Math.round(Math.random() * 1000)` (ms). -/
def jitterMax : Nat := 1000

/-- The deterministic part of the backoff delay before the attempt after
attempt number `attempt` fails. -/
def backoffDelay (attempt : Nat) : Nat := min (baseDelay * 2 ^ (attempt - 1)) capDelay

/-- The whole wait: backoff delay plus the drawn jitter. -/
def backoffWait (attempt jitter : Nat) : Nat := backoffDelay attempt + jitter

/-- State of the `while (true)` retry loop of `connectWithRetry`: either about
to run attempt `n`, or connected after attempt `n`. The loop has no error
state: it never surfaces a failure to its caller. -/
inductive RetryState where
  | attempting (attempt : Nat)
  | connected (attempt : Nat)
  deriving DecidableEq, Repr

/-- One iteration of the retry loop: on success `dbConnected` is set and the
loop breaks; on failure the loop sleeps and retries with the next attempt
number, whatever the attempt count. -/
def retryStep (success : Bool) : RetryState → RetryState
  | .attempting n => if success then .connected n else .attempting (n + 1)
  | .connected n => .connected n

/-! ## AccessGate and stock redaction (src/src/app.js sweetRoutes) -/

/-- The decoded JWT payload as consumed by `requestIsAdmin`. -/
structure JwtClaims where
  role : String
  deriving DecidableEq, Repr

/-- `auth.startsWith("Bearer ") ? auth.split(" ")[1] : null`. -/
def extractBearerToken (auth : String) : Option String :=
  if auth.startsWith "Bearer " then (auth.splitOn " ").get? 1 else none

/-- `requestIsAdmin(req)`: reads the Authorization header, extracts the bearer
token, verifies it (`verify` models `jwt.verify`; `none` models a thrown
verification error, caught and turned into `false`), and checks the role.
Total: every failure collapses to `false`. -/
def requestIsAdmin (authHeader : Option String)
    (verify : String → Option JwtClaims) : Bool :=
  let auth := authHeader.getD ""
  match extractBearerToken auth with
  | none => false
  | some token =>
      if token = "" then false
      else
        match verify token with
        | none => false
        | some payload => payload.role == "admin"

/-- A JS object field as it reaches `res.json`: missing, set to `undefined`,
set to `null`, or holding a number. `JSON.stringify` drops the first two. -/
inductive JsField where
  | missing
  | undef
  | nullv
  | val (n : Int)
  deriving DecidableEq, Repr

/-- Whether the field appears at all in the serialized JSON response. -/
def JsField.inJson : JsField → Bool
  | .missing => false
  | .undef => false
  | .nullv => true
  | .val _ => true

/-- A sweet as a plain response object. -/
structure SweetObj where
  id : String
  name : String
  category : String
  price : Int
  stock : JsField
  deriving DecidableEq, Repr

/-- Everything of a sweet except its stock field. -/
def SweetObj.withoutStock (s : SweetObj) : String × String × String × Int :=
  (s.id, s.name, s.category, s.price)

/-- `hideStockForNonAdmin(sweets, isAdmin)`: for a non-admin viewer, maps each
object and sets `stock = undefined`; returns the list unchanged for an admin. -/
def hideStockForNonAdmin (sweets : List SweetObj) (isAdmin : Bool) :
    List SweetObj :=
  if isAdmin then sweets
  else sweets.map (fun s => { s with stock := JsField.undef })

/-- The listing route body: `hideStockForNonAdmin(sweets, requestIsAdmin(req))`. -/
def listSweets (sweets : List SweetObj) (authHeader : Option String)
    (verify : String → Option JwtClaims) : List SweetObj :=
  hideStockForNonAdmin sweets (requestIsAdmin authHeader verify)

/-! ## CartAggregator (src/unnamed/part_002 cartRoutes) -/

/-- A payload field that is supposed to carry an item id: absent, a scalar
string, or a nested object possibly carrying its own `_id` string. -/
inductive IdField where
  | absent
  | str (s : String)
  | obj (oid : Option String)
  deriving DecidableEq, Repr

/-- JS truthiness of an id field (an object is always truthy). -/
def IdField.truthy : IdField → Bool
  | .absent => false
  | .str s => !(s == "")
  | .obj _ => true

/-- JS `a || b` on id fields. -/
def jsOrId (a b : IdField) : IdField := if a.truthy then a else b

/-- JS `a && b` on id fields. -/
def jsAndId (a b : IdField) : IdField := if a.truthy then b else a

/-- Accessing `._id` on an id-field value: an object yields its `_id` (or
undefined), a scalar string has no `_id`. -/
def IdField.idProp : IdField → IdField
  | .obj (some s) => .str s
  | .obj none => .absent
  | .str _ => .absent
  | .absent => .absent

/-- JS `String(v)` on an id field. -/
def IdField.jsString : IdField → String
  | .absent => "undefined"
  | .str s => s
  | .obj _ => "[object Object]"

/-- One element of a cart payload, carrying the fields `normalizePayload`
reads: `itemId`, `item`, `_id` (here `mongoId`), `quantity`, `qty`. -/
structure RawEntry where
  itemId : IdField
  item : IdField
  mongoId : IdField
  quantity : JVal
  qty : JVal
  deriving DecidableEq, Repr

/-- `it.itemId || it.item || it._id || (it.item && it.item._id)`. -/
def maybeIdOf (it : RawEntry) : IdField :=
  jsOrId it.itemId (jsOrId it.item (jsOrId it.mongoId (jsAndId it.item it.item.idProp)))

/-- `Number(it.quantity || it.qty || 1)`; `none` models NaN. -/
def normQuantity (it : RawEntry) : Option Int :=
  (jsOr it.quantity (jsOr it.qty (JVal.jnum 1))).toNumber

/-- One entry of the normalized payload: `{ itemId: maybeId, quantity: Number(...) }`. -/
structure NormEntry where
  itemId : IdField
  quantity : Option Int
  deriving DecidableEq, Repr

/-- A request body for the cart routes: either it has an `items` array, or its
own top-level entry fields are read. -/
structure CartBody where
  items : Option (List RawEntry)
  self : RawEntry
  deriving DecidableEq, Repr

/-- `normalizePayload(body)` from cartRoutes. -/
def normalizePayload (body : Option CartBody) : List NormEntry :=
  match body with
  | none => []
  | some b =>
      match b.items with
      | some its => its.map (fun it => ⟨maybeIdOf it, normQuantity it⟩)
      | none =>
          let maybeId := maybeIdOf b.self
          if maybeId.truthy then [⟨maybeId, normQuantity b.self⟩] else []

/-- `Math.max(1, Number(it.quantity || 1))` applied to an already-normalized
quantity (a JS number, possibly NaN). -/
def entryQuantity (q : Option Int) : Int :=
  max 1 (match q with
         | none => 1
         | some v => if v = 0 then 1 else v)

/-- `mongoose.Types.ObjectId.isValid` on a string: a 12-character string or a
24-character hex string. -/
def isValidObjectId (s : String) : Bool :=
  s.length == 12 ||
    (s.length == 24 && s.toList.all (fun c =>
      c.isDigit || (97 ≤ c.toNat && c.toNat ≤ 102) || (65 ≤ c.toNat && c.toNat ≤ 70)))

/-- Outcome of a cart route handler. -/
inductive CartResp where
  | badRequest (message : String)
  | notFound (message : String)
  | ok (cart : List (String × Int))
  deriving DecidableEq, Repr

/-- The validation loop of POST /api/cart: per entry, missing id → 400,
invalid id → 400 naming it, id not in the catalog → 404 naming it; otherwise
the entry `(idStr, Math.max(1, Number(quantity || 1)))` is collected. -/
def validateEntriesPost (isValid : String → Bool) (catalog : List String) :
    List NormEntry → Except CartResp (List (String × Int))
  | [] => .ok []
  | it :: rest =>
      if !it.itemId.truthy then .error (.badRequest "Missing itemId for an item")
      else
        let idStr := it.itemId.jsString
        if !isValid idStr then .error (.badRequest ("Invalid itemId: " ++ idStr))
        else if !catalog.contains idStr then
          .error (.notFound ("Item not found: " ++ idStr))
        else
          match validateEntriesPost isValid catalog rest with
          | .error e => .error e
          | .ok tl => .ok ((idStr, entryQuantity it.quantity) :: tl)

/-- The validation loop of PUT /api/cart (messages differ slightly). -/
def validateEntriesPut (isValid : String → Bool) (catalog : List String) :
    List NormEntry → Except CartResp (List (String × Int))
  | [] => .ok []
  | it :: rest =>
      if !it.itemId.truthy then .error (.badRequest "Missing itemId")
      else
        let idStr := it.itemId.jsString
        if !isValid idStr then .error (.badRequest "Invalid itemId")
        else if !catalog.contains idStr then
          .error (.notFound ("Item not found: " ++ idStr))
        else
          match validateEntriesPut isValid catalog rest with
          | .error e => .error e
          | .ok tl => .ok ((idStr, entryQuantity it.quantity) :: tl)

/-- The merge of one normalized entry into the cart's item list: the first
line with the same id gets its quantity increased, otherwise a new line is
pushed at the end (`findIndex` then update, else push). -/
def addOne : List (String × Int) → String → Int → List (String × Int)
  | [], id, q => [(id, q)]
  | (i, n) :: rest, id, q =>
      if i == id then (i, n + q) :: rest
      else (i, n) :: addOne rest id q

/-- The merge loop of POST /api/cart over all normalized entries. -/
def mergeItems : List (String × Int) → List (String × Int) → List (String × Int)
  | cart, [] => cart
  | cart, (id, q) :: rest => mergeItems (addOne cart id q) rest

/-- POST /api/cart: normalize, reject an empty batch, validate every entry
against the catalog, then create the cart or merge into it. The cart state is
`none` when the user has no cart yet. -/
def cartAdd (isValid : String → Bool) (catalog : List String)
    (cart : Option (List (String × Int))) (body : Option CartBody) :
    CartResp × Option (List (String × Int)) :=
  let raw := normalizePayload body
  if raw.isEmpty then (.badRequest "No items provided", cart)
  else
    match validateEntriesPost isValid catalog raw with
    | .error e => (e, cart)
    | .ok normalized =>
        match cart with
        | none => (.ok normalized, some normalized)
        | some c =>
            let merged := mergeItems c normalized
            (.ok merged, some merged)

/-- PUT /api/cart: normalize, validate every entry, then wholesale replace the
cart's item list (creating the cart when absent). -/
def cartReplace (isValid : String → Bool) (catalog : List String)
    (cart : Option (List (String × Int))) (body : Option CartBody) :
    CartResp × Option (List (String × Int)) :=
  let raw := normalizePayload body
  match validateEntriesPut isValid catalog raw with
  | .error e => (e, cart)
  | .ok normalized => (.ok normalized, some normalized)

/-- Whether a normalized entry would pass the per-entry id checks: a truthy
scalar string id accepted by the id validator. -/
def NormEntry.wellFormedId (isValid : String → Bool) (e : NormEntry) : Bool :=
  match e.itemId with
  | .str s => !(s == "") && isValid s
  | .absent => false
  | .obj _ => false

/-- Specification helper for C8: the first scalar id of the batch that the
catalog does not contain. -/
def firstMissingId (catalog : List String) : List NormEntry → Option String
  | [] => none
  | e :: rest =>
      match e.itemId with
      | .str s => if catalog.contains s then firstMissingId catalog rest else some s
      | .absent => firstMissingId catalog rest
      | .obj _ => firstMissingId catalog rest

/-! ## Theorems: inventory (C1, C2, C6, C10) -/

theorem runPurchases_eq_sub (s : Int) (qs : List Int) :
    runPurchases s qs = s - (successfulQuantities s qs).sum := by
  induction qs generalizing s with
  | nil => simp [runPurchases, successfulQuantities]
  | cons q qs ih =>
      by_cases h : q ≤ s
      · simp [runPurchases, successfulQuantities, purchaseStep, h, ih]
        ring
      · simp [runPurchases, successfulQuantities, purchaseStep, h, ih]

theorem stockObservations_nonneg (qs : List Int) :
    ∀ s : Int, 0 ≤ s → allNonneg (stockObservations s qs) = true := by
  induction qs with
  | nil =>
      intro s hs
      simpa [stockObservations, allNonneg] using hs
  | cons q qs ih =>
      intro s hs
      have hstep : 0 ≤ (purchaseStep s q).1 := by
        simp only [purchaseStep]
        split <;> omega
      have htail := ih _ hstep
      simp only [stockObservations, allNonneg, List.all_cons, Bool.and_eq_true,
        decide_eq_true_iff] at htail ⊢
      exact ⟨hs, htail⟩

/-- C1: for every item whose stock starts nonnegative and every sequence of
purchase calls on it — concurrency modelled as an arbitrary interleaving of
the atomic conditional decrements, i.e. a sequence of `purchaseStep`s — the
final stock equals the initial stock minus the sum of the quantities of the
successful purchases, and no reader ever observes a negative stock. -/
theorem purchase_sequences_conserve_and_stay_nonneg (s : Int) (qs : List Int)
    (h : 0 ≤ s) :
    runPurchases s qs = s - (successfulQuantities s qs).sum
    ∧ allNonneg (stockObservations s qs) = true :=
  ⟨runPurchases_eq_sub s qs, stockObservations_nonneg qs s h⟩

/-- Witness for C1: stock 5 and purchase quantities [2, 4, 3] (the second one
fails, the others succeed). -/
theorem purchase_sequences_witness :
    runPurchases 5 [2, 4, 3] = 5 - (successfulQuantities 5 [2, 4, 3]).sum
    ∧ allNonneg (stockObservations 5 [2, 4, 3]) = true :=
  purchase_sequences_conserve_and_stay_nonneg 5 [2, 4, 3] (by decide)

/-- C2: a purchase whose coerced quantity is positive fails with
InsufficientStock reporting the exact current stock (and mutates nothing)
when the item exists with stock < quantity, fails with NotFound when the item
is absent, and performs the conditional decrement exactly when
stock ≥ quantity. -/
theorem purchase_error_cases (stock : Option Int) (quantity : JVal)
    (hq : 0 < purchaseQty quantity) :
    (∀ s : Int, stock = some s → s < purchaseQty quantity →
        purchaseHandler stock quantity = (.insufficientStock s, some s))
    ∧ (stock = none → purchaseHandler stock quantity = (.notFound, none))
    ∧ (∀ s : Int, stock = some s → purchaseQty quantity ≤ s →
        purchaseHandler stock quantity
          = (.ok (s - purchaseQty quantity) (purchaseQty quantity),
             some (s - purchaseQty quantity))) := by
  refine ⟨?_, ?_, ?_⟩
  · rintro s rfl hlt
    have h1 : ¬ purchaseQty quantity ≤ 0 := by omega
    have h2 : ¬ purchaseQty quantity ≤ s := by omega
    simp [purchaseHandler, purchaseStep, h1, h2]
  · rintro rfl
    have h1 : ¬ purchaseQty quantity ≤ 0 := by omega
    simp [purchaseHandler, h1]
  · rintro s rfl hle
    have h1 : ¬ purchaseQty quantity ≤ 0 := by omega
    simp [purchaseHandler, purchaseStep, h1, hle]

/-- Witness for C2 at quantity 2: stock 1 → InsufficientStock 1, absent item →
NotFound, stock 7 → decrement to 5. -/
theorem purchase_error_cases_witness :
    purchaseHandler (some 1) (JVal.jnum 2) = (.insufficientStock 1, some 1)
    ∧ purchaseHandler none (JVal.jnum 2) = (.notFound, none)
    ∧ purchaseHandler (some 7) (JVal.jnum 2) = (.ok 5 2, some 5) := by
  refine ⟨?_, ?_, ?_⟩
  · have h := (purchase_error_cases (some 1) (JVal.jnum 2) (by decide)).1 1 rfl
      (by decide)
    simpa using h
  · exact (purchase_error_cases none (JVal.jnum 2) (by decide)).2.1 rfl
  · have h := (purchase_error_cases (some 7) (JVal.jnum 2) (by decide)).2.2 7 rfl
      (by decide)
    simpa using h

/-- C6: restock rejects a quantity that coerces to NaN or to a nonpositive
number with InvalidQuantity and no mutation; with a positive quantity it adds
exactly that quantity to an existing item's stock, and reports NotFound when
the item is absent. -/
theorem restock_spec (stock : Option Int) (quantity : JVal) :
    ((quantity.toNumber = none ∨ ∃ v, quantity.toNumber = some v ∧ v ≤ 0) →
        restockHandler stock quantity = (.invalidQuantity, stock))
    ∧ (∀ v s : Int, quantity.toNumber = some v → 0 < v → stock = some s →
        restockHandler stock quantity = (.ok (s + v), some (s + v)))
    ∧ (∀ v : Int, quantity.toNumber = some v → 0 < v → stock = none →
        restockHandler stock quantity = (.notFound, none)) := by
  refine ⟨?_, ?_, ?_⟩
  · intro h
    rcases quantity with _ | _ | n | ⟨emp, numv⟩ | b | _
    · simp [restockHandler, JVal.truthy]
    · simp [restockHandler, JVal.truthy]
    · rcases h with h | ⟨v, hv, hle⟩
      · simp [JVal.toNumber] at h
      · simp only [JVal.toNumber, Option.some.injEq] at hv
        subst hv
        by_cases hn : n = 0
        · subst hn; simp [restockHandler, JVal.truthy]
        · simp [restockHandler, JVal.truthy, JVal.toNumber, hn, hle]
    · by_cases hemp : emp = true
      · subst hemp; simp [restockHandler, JVal.truthy]
      · have hemp2 : emp = false := by simpa using hemp
        subst hemp2
        rcases h with h | ⟨v, hv, hle⟩
        · simp only [JVal.toNumber, if_false, Bool.false_eq_true] at h
          simp [restockHandler, JVal.truthy, JVal.toNumber, h]
        · simp only [JVal.toNumber, Bool.false_eq_true, if_false] at hv
          simp [restockHandler, JVal.truthy, JVal.toNumber, hv, hle]
    · rcases b with _ | _
      · simp [restockHandler, JVal.truthy]
      · rcases h with h | ⟨v, hv, hle⟩
        · simp [JVal.toNumber] at h
        · simp only [JVal.toNumber, if_true, Option.some.injEq] at hv
          omega
    · simp [restockHandler, JVal.truthy, JVal.toNumber]
  · rintro v s hv hpos rfl
    rcases quantity with _ | _ | n | ⟨emp, numv⟩ | b | _
    · simp [JVal.toNumber] at hv
    · simp only [JVal.toNumber, Option.some.injEq] at hv; omega
    · simp only [JVal.toNumber, Option.some.injEq] at hv
      subst hv
      have hn : ¬ n = 0 := by omega
      have hle : ¬ n ≤ 0 := by omega
      simp [restockHandler, JVal.truthy, JVal.toNumber, hn, hle]
    · rcases emp with _ | _
      · simp only [JVal.toNumber, Bool.false_eq_true, if_false] at hv
        have hle : ¬ v ≤ 0 := by omega
        simp [restockHandler, JVal.truthy, JVal.toNumber, hv, hle]
      · simp only [JVal.toNumber, if_true] at hv
        simp only [Option.some.injEq] at hv
        omega
    · rcases b with _ | _
      · simp [JVal.toNumber] at hv; omega
      · simp only [JVal.toNumber, Option.some.injEq] at hv
        subst hv
        norm_num [restockHandler, JVal.truthy, JVal.toNumber]
    · simp [JVal.toNumber] at hv
  · rintro v hv hpos rfl
    rcases quantity with _ | _ | n | ⟨emp, numv⟩ | b | _
    · simp [JVal.toNumber] at hv
    · simp only [JVal.toNumber, Option.some.injEq] at hv; omega
    · simp only [JVal.toNumber, Option.some.injEq] at hv
      subst hv
      have hn : ¬ n = 0 := by omega
      have hle : ¬ n ≤ 0 := by omega
      simp [restockHandler, JVal.truthy, JVal.toNumber, hn, hle]
    · rcases emp with _ | _
      · simp only [JVal.toNumber, Bool.false_eq_true, if_false] at hv
        have hle : ¬ v ≤ 0 := by omega
        simp [restockHandler, JVal.truthy, JVal.toNumber, hv, hle]
      · simp only [JVal.toNumber, if_true, Option.some.injEq] at hv
        omega
    · rcases b with _ | _
      · simp [JVal.toNumber] at hv; omega
      · simp only [JVal.toNumber, Option.some.injEq] at hv
        subst hv
        norm_num [restockHandler, JVal.truthy, JVal.toNumber]
    · simp [JVal.toNumber] at hv

/-- Witness for C6: quantity −3 is rejected without mutation, quantity 10
restocks 4 to 14, quantity 10 on a missing item is NotFound. -/
theorem restock_spec_witness :
    restockHandler (some 4) (JVal.jnum (-3)) = (.invalidQuantity, some 4)
    ∧ restockHandler (some 4) (JVal.jnum 10) = (.ok 14, some 14)
    ∧ restockHandler none (JVal.jnum 10) = (.notFound, none) := by
  refine ⟨?_, ?_, ?_⟩
  · exact (restock_spec (some 4) (JVal.jnum (-3))).1
      (Or.inr ⟨-3, rfl, by decide⟩)
  · have h := (restock_spec (some 4) (JVal.jnum 10)).2.1 10 4 rfl (by decide) rfl
    simpa using h
  · exact (restock_spec none (JVal.jnum 10)).2.2 10 rfl (by decide) rfl

theorem purchaseQty_nonpos_iff (quantity : JVal) :
    purchaseQty quantity ≤ 0 ↔ ∃ v, quantity.toNumber = some v ∧ v < 0 := by
  rcases quantity with _ | _ | n | ⟨emp, numv⟩ | b | _
  · simp [purchaseQty, JVal.toNumber]
  · simp [purchaseQty, JVal.toNumber]
  · by_cases hn : n = 0
    · subst hn; simp [purchaseQty, JVal.toNumber]
    · simp [purchaseQty, JVal.toNumber, hn]
      omega
  · rcases emp with _ | _
    · rcases numv with _ | v
      · simp [purchaseQty, JVal.toNumber]
      · by_cases hv : v = 0
        · subst hv; simp [purchaseQty, JVal.toNumber]
        · simp [purchaseQty, JVal.toNumber, hv]
          omega
    · simp [purchaseQty, JVal.toNumber]
  · rcases b with _ | _
    · simp [purchaseQty, JVal.toNumber]
    · simp [purchaseQty, JVal.toNumber]
  · simp [purchaseQty, JVal.toNumber]

theorem purchaseHandler_badQuantity_iff (stock : Option Int) (quantity : JVal) :
    (purchaseHandler stock quantity).1 = PurchaseResult.badQuantity ↔
      purchaseQty quantity ≤ 0 := by
  by_cases h : purchaseQty quantity ≤ 0
  · simp [purchaseHandler, h]
  · rcases stock with _ | s
    · simp [purchaseHandler, h]
    · by_cases hs : purchaseQty quantity ≤ s
      · simp [purchaseHandler, purchaseStep, h, hs]
      · simp [purchaseHandler, purchaseStep, h, hs]

/-- C10: a purchase-body quantity that is omitted, 0, or non-numeric is
coerced to 1 and the purchase proceeds with 1 unit; the handler rejects with
its validation error exactly when the quantity coerces to a strictly negative
number. -/
theorem purchase_lenient_quantity (quantity : JVal) :
    ((quantity = JVal.absent ∨ quantity = JVal.jnum 0 ∨ quantity.toNumber = none) →
        purchaseQty quantity = 1
        ∧ ∀ s : Int, 1 ≤ s →
            purchaseHandler (some s) quantity = (.ok (s - 1) 1, some (s - 1)))
    ∧ (∀ stock : Option Int,
        (purchaseHandler stock quantity).1 = PurchaseResult.badQuantity ↔
          ∃ v, quantity.toNumber = some v ∧ v < 0) := by
  constructor
  · intro h
    have hq : purchaseQty quantity = 1 := by
      rcases h with rfl | rfl | h
      · simp [purchaseQty, JVal.toNumber]
      · simp [purchaseQty, JVal.toNumber]
      · by_cases ha : quantity = JVal.absent
        · subst ha; simp [purchaseQty, JVal.toNumber]
        · simp [purchaseQty, ha, h]
    refine ⟨hq, ?_⟩
    intro s hs
    have h1 : ¬ (1 : Int) ≤ 0 := by norm_num
    simp [purchaseHandler, purchaseStep, hq, h1, hs]
  · intro stock
    rw [purchaseHandler_badQuantity_iff, purchaseQty_nonpos_iff]

/-- Witness for C10: quantity 0 buys exactly one unit from stock 5, and a
quantity of −2 is the rejected case. -/
theorem purchase_lenient_quantity_witness :
    purchaseQty (JVal.jnum 0) = 1
    ∧ purchaseHandler (some 5) (JVal.jnum 0) = (.ok 4 1, some 4)
    ∧ ((purchaseHandler (some 5) (JVal.jnum (-2))).1 = PurchaseResult.badQuantity ↔
        ∃ v, (JVal.jnum (-2)).toNumber = some v ∧ v < 0) := by
  have h := (purchase_lenient_quantity (JVal.jnum 0)).1 (Or.inr (Or.inl rfl))
  refine ⟨h.1, ?_, (purchase_lenient_quantity (JVal.jnum (-2))).2 (some 5)⟩
  have h2 := h.2 5 (by decide)
  simpa using h2

/-! ## Theorems: availability gate (C5) and backoff (C7) -/

/-- C5: while `dbConnected` is false, every call passing through the `/api`
gate gets the ServiceUnavailable outcome with the human-readable message and
the storage state is untouched; once `dbConnected` is true, the very same
call is no longer rejected by the gate — the route handler runs. -/
theorem api_gate_blocks_until_connected {σ ρ : Type} (dbConnected : Bool)
    (call : σ → ρ × σ) (st : σ) :
    (dbConnected = false →
        apiGate dbConnected call st = (.serviceUnavailable dbUnavailableMessage, st))
    ∧ (dbConnected = true →
        apiGate dbConnected call st = (.handled (call st).1, (call st).2)) := by
  constructor
  · rintro rfl
    simp [apiGate]
  · rintro rfl
    simp [apiGate]

/-- Witness for C5: a restock of 3 on stock 5 is rejected with the store
untouched while disconnected, and performs the restock once connected. -/
theorem api_gate_witness :
    apiGate false (fun st => restockHandler st (JVal.jnum 3)) (some (5 : Int))
      = (.serviceUnavailable dbUnavailableMessage, some 5)
    ∧ apiGate true (fun st => restockHandler st (JVal.jnum 3)) (some (5 : Int))
      = (.handled (RestockResult.ok 8), some 8) := by
  constructor
  · exact (api_gate_blocks_until_connected false
      (fun st => restockHandler st (JVal.jnum 3)) (some 5)).1 rfl
  · have h := (api_gate_blocks_until_connected true
      (fun st => restockHandler st (JVal.jnum 3)) (some 5)).2 rfl
    simpa using h

/-- C7: for every attempt n ≥ 1 and drawn jitter ≤ 1000 ms, the wait before
the next attempt is min(2000·2^(n−1), 60000) + jitter; the deterministic
delay is non-decreasing in the attempt number; the wait never exceeds
61000 ms; and a failed attempt always leads to attempt n+1 — the loop has no
attempt ceiling and never surfaces an error. -/
theorem backoff_and_unbounded_retry (n j : Nat) (hn : 1 ≤ n) (hj : j ≤ jitterMax) :
    backoffWait n j = min (2000 * 2 ^ (n - 1)) 60000 + j
    ∧ backoffDelay n ≤ backoffDelay (n + 1)
    ∧ backoffWait n j ≤ 61000
    ∧ retryStep false (.attempting n) = .attempting (n + 1) := by
  refine ⟨rfl, ?_, ?_, rfl⟩
  · unfold backoffDelay
    refine min_le_min (Nat.mul_le_mul_left _ ?_) (le_refl _)
    exact Nat.pow_le_pow_right (by norm_num) (by omega)
  · have hcap : backoffDelay n ≤ capDelay := by
      unfold backoffDelay
      exact Nat.min_le_right _ _
    unfold backoffWait
    unfold capDelay at hcap
    unfold jitterMax at hj
    omega

/-- Witness for C7 at attempt 3 with jitter 500 ms. -/
theorem backoff_witness :
    backoffWait 3 500 = min (2000 * 2 ^ (3 - 1)) 60000 + 500
    ∧ backoffDelay 3 ≤ backoffDelay (3 + 1)
    ∧ backoffWait 3 500 ≤ 61000
    ∧ retryStep false (.attempting 3) = .attempting (3 + 1) :=
  backoff_and_unbounded_retry 3 500 (by decide) (by decide)

/-! ## Theorems: stock redaction and soft admin check (C9) -/

/-- C9: a caller who does not resolve to admin gets every listed item with the
stock field dropped from the serialized response (absence, not a null or zero
placeholder) and every other field unchanged; an admin gets the list
unchanged; and `requestIsAdmin` never raises — a missing header, a header
without a bearer token, a token that fails verification, or a payload whose
role is not admin all collapse to `false`. -/
theorem stock_redaction_and_soft_admin (sweets : List SweetObj)
    (authHeader : Option String) (verify : String → Option JwtClaims) :
    (requestIsAdmin authHeader verify = false →
        listSweets sweets authHeader verify
          = sweets.map (fun s => { s with stock := JsField.undef }))
    ∧ JsField.inJson JsField.undef = false
    ∧ (requestIsAdmin authHeader verify = true →
        listSweets sweets authHeader verify = sweets)
    ∧ ((sweets.map (fun s => { s with stock := JsField.undef })).map
        SweetObj.withoutStock = sweets.map SweetObj.withoutStock)
    ∧ (authHeader = none → requestIsAdmin authHeader verify = false)
    ∧ (∀ a, authHeader = some a → extractBearerToken a = none →
        requestIsAdmin authHeader verify = false)
    ∧ (∀ a t, authHeader = some a → extractBearerToken a = some t →
        verify t = none → requestIsAdmin authHeader verify = false)
    ∧ (∀ a t p, authHeader = some a → extractBearerToken a = some t →
        verify t = some p → p.role ≠ "admin" →
        requestIsAdmin authHeader verify = false) := by
  refine ⟨?_, rfl, ?_, ?_, ?_, ?_, ?_, ?_⟩
  · intro h
    simp [listSweets, hideStockForNonAdmin, h]
  · intro h
    simp [listSweets, hideStockForNonAdmin, h]
  · simp [SweetObj.withoutStock]
  · rintro rfl
    rfl
  · rintro a rfl htok
    unfold requestIsAdmin
    rw [Option.getD_some]
    dsimp only
    rw [htok]
  · rintro a t rfl htok hver
    unfold requestIsAdmin
    rw [Option.getD_some]
    dsimp only
    rw [htok]
    dsimp only
    by_cases hemp : t = ""
    · rw [if_pos hemp]
    · rw [if_neg hemp, hver]
  · rintro a t p rfl htok hver hrole
    unfold requestIsAdmin
    rw [Option.getD_some]
    dsimp only
    rw [htok]
    dsimp only
    by_cases hemp : t = ""
    · rw [if_pos hemp]
    · rw [if_neg hemp, hver]
      dsimp only
      exact beq_eq_false_iff_ne.mpr hrole

/-- Witness for C9: one listed sweet and a request without an Authorization
header: the response drops the stock field and the caller is not admin. -/
theorem stock_redaction_witness :
    listSweets [⟨"i1", "Ladoo", "Indian", 10, JsField.val 7⟩] none (fun _ => none)
      = [⟨"i1", "Ladoo", "Indian", 10, JsField.undef⟩]
    ∧ requestIsAdmin none (fun _ => none) = false := by
  have hadmin : requestIsAdmin none (fun _ => none) = false :=
    (stock_redaction_and_soft_admin [⟨"i1", "Ladoo", "Indian", 10, JsField.val 7⟩]
      none (fun _ => none)).2.2.2.2.1 rfl
  have h := (stock_redaction_and_soft_admin
      [⟨"i1", "Ladoo", "Indian", 10, JsField.val 7⟩]
      none (fun _ => none)).1 hadmin
  exact ⟨by simpa using h, hadmin⟩

/-! ## Theorems: cart normalization and merge/replace (C3, C4, C8) -/

/-- The C3 payload `{items: [{item: {_id: "A"}, quantity: 3}]}`. -/
def nestedItemBody : CartBody :=
  { items := some [{ itemId := .absent, item := .obj (some "A"), mongoId := .absent,
                     quantity := .jnum 3, qty := .absent }],
    self := { itemId := .absent, item := .absent, mongoId := .absent,
              quantity := .absent, qty := .absent } }

/-- The empty payload `{}`. -/
def emptyBody : CartBody :=
  { items := none,
    self := { itemId := .absent, item := .absent, mongoId := .absent,
              quantity := .absent, qty := .absent } }

/-- C3 (the code, evaluated at the failing input): on
`{items: [{item: {_id: "A"}, quantity: 3}]}` the `||` chain in
`normalizePayload` returns the truthy `item` object itself — the trailing
`it.item && it.item._id` disjunct is dead — so the produced entry's itemId is
the whole nested object, not the extracted string "A"; the `{}` payload does
normalize to the empty list. -/
theorem normalizePayload_nested_item_bug :
    normalizePayload (some nestedItemBody)
      = [⟨IdField.obj (some "A"), some 3⟩]
    ∧ normalizePayload (some nestedItemBody)
      ≠ [⟨IdField.str "A", some 3⟩]
    ∧ normalizePayload (some emptyBody) = [] := by
  refine ⟨rfl, ?_, rfl⟩
  decide

/-- The C4 payload `{itemId: X, quantity: 2}`. -/
def addTwiceBody (X : String) : CartBody :=
  { items := none,
    self := { itemId := .str X, item := .absent, mongoId := .absent,
              quantity := .jnum 2, qty := .absent } }

/-- The cart lines whose item id is `X`. -/
def linesFor (X : String) (c : List (String × Int)) : List (String × Int) :=
  c.filter (fun p => p.1 == X)

/-- A valid 12-character item id used in concrete runs. -/
def xId : String := "aaaaaaaaaaaa"

/-- C4 (counterexample to the claim as stated): the claim quantifies over
every cart, but on a cart that already holds the line (X, 5) two adds of
{itemId: X, quantity: 2} leave quantity 9, not 4. -/
theorem cart_add_twice_counterexample :
    (cartAdd isValidObjectId [xId]
        (cartAdd isValidObjectId [xId] (some [(xId, 5)]) (some (addTwiceBody xId))).2
        (some (addTwiceBody xId))).2
      = some [(xId, 9)]
    ∧ (9 : Int) ≠ 4 := by
  refine ⟨?_, by decide⟩
  decide

theorem addOne_of_not_mem (c : List (String × Int)) (X : String) (q : Int)
    (h : ∀ p ∈ c, (p.1 == X) = false) :
    addOne c X q = c ++ [(X, q)] := by
  induction c with
  | nil => rfl
  | cons hd tl ih =>
      obtain ⟨i, n⟩ := hd
      have hhd : (i == X) = false := h (i, n) (by simp)
      simp only [addOne, hhd, Bool.false_eq_true, if_false, List.cons_append,
        List.cons.injEq, true_and]
      exact ih (fun p hp => h p (List.mem_cons_of_mem _ hp))

theorem addOne_append_same (c : List (String × Int)) (X : String) (n q : Int)
    (h : ∀ p ∈ c, (p.1 == X) = false) :
    addOne (c ++ [(X, n)]) X q = c ++ [(X, n + q)] := by
  induction c with
  | nil => simp [addOne]
  | cons hd tl ih =>
      obtain ⟨i, m⟩ := hd
      have hhd : (i == X) = false := h (i, m) (by simp)
      simp only [List.cons_append, addOne, hhd, Bool.false_eq_true, if_false,
        List.cons.injEq, true_and]
      exact ih (fun p hp => h p (List.mem_cons_of_mem _ hp))

/-- C4 (amended): for every cart that does not already hold a line for X
(including the no-cart state) and every existing valid item X, two adds of
{itemId: X, quantity: 2} leave exactly one line for X, with quantity 4
(additive, not idempotent), while two replaces with the same payload leave
exactly the single line (X, 2) whatever the starting cart (idempotent). -/
theorem cart_add_twice_amended (isValid : String → Bool) (catalog : List String)
    (cart : Option (List (String × Int))) (X : String)
    (hne : (X == "") = false) (hvalid : isValid X = true)
    (hmem : catalog.contains X = true)
    (hnot : ∀ p ∈ cart.getD [], (p.1 == X) = false) :
    linesFor X ((cartAdd isValid catalog
        (cartAdd isValid catalog cart (some (addTwiceBody X))).2
        (some (addTwiceBody X))).2.getD [])
      = [(X, 4)]
    ∧ (cartReplace isValid catalog
        (cartReplace isValid catalog cart (some (addTwiceBody X))).2
        (some (addTwiceBody X))).2 = some [(X, 2)] := by
  have hnorm : normalizePayload (some (addTwiceBody X)) = [⟨IdField.str X, some 2⟩] := by
    norm_num [normalizePayload, addTwiceBody, maybeIdOf, jsOrId, IdField.truthy,
      hne, normQuantity, jsOr, JVal.truthy, JVal.toNumber]
  have hmem2 : X ∈ catalog := by simpa using hmem
  have hval : validateEntriesPost isValid catalog [⟨IdField.str X, some 2⟩]
      = .ok [(X, 2)] := by
    norm_num [validateEntriesPost, IdField.truthy, IdField.jsString, hne, hvalid,
      hmem, hmem2, entryQuantity]
  have hvalPut : validateEntriesPut isValid catalog [⟨IdField.str X, some 2⟩]
      = .ok [(X, 2)] := by
    norm_num [validateEntriesPut, IdField.truthy, IdField.jsString, hne, hvalid,
      hmem, hmem2, entryQuantity]
  constructor
  · have hadd1 : (cartAdd isValid catalog cart (some (addTwiceBody X))).2
        = some (cart.getD [] ++ [(X, 2)]) := by
      cases cart with
      | none => simp [cartAdd, hnorm, hval]
      | some c =>
          have hc : addOne c X 2 = c ++ [(X, 2)] :=
            addOne_of_not_mem c X 2 (by simpa using hnot)
          simp [cartAdd, hnorm, hval, mergeItems, hc]
    have hadd2 : (cartAdd isValid catalog (some (cart.getD [] ++ [(X, 2)]))
        (some (addTwiceBody X))).2 = some (cart.getD [] ++ [(X, 4)]) := by
      have hc : addOne (cart.getD [] ++ [(X, 2)]) X 2 = cart.getD [] ++ [(X, 4)] := by
        have := addOne_append_same (cart.getD []) X 2 2 hnot
        norm_num at this
        exact this
      simp [cartAdd, hnorm, hval, mergeItems, hc]
    rw [hadd1, hadd2]
    have hfil : (cart.getD []).filter (fun p => p.1 == X) = [] := by
      rw [List.filter_eq_nil_iff]
      intro p hp
      simp [hnot p hp]
    simp [linesFor, List.filter_append, hfil]
  · have hrep1 : (cartReplace isValid catalog cart (some (addTwiceBody X))).2
        = some [(X, 2)] := by
      simp [cartReplace, hnorm, hvalPut]
    rw [hrep1]
    simp [cartReplace, hnorm, hvalPut]

/-- Witness for C4 (amended): starting from no cart with catalog [xId]. -/
theorem cart_add_twice_witness :
    linesFor xId ((cartAdd isValidObjectId [xId]
        (cartAdd isValidObjectId [xId] none (some (addTwiceBody xId))).2
        (some (addTwiceBody xId))).2.getD [])
      = [(xId, 4)]
    ∧ (cartReplace isValidObjectId [xId]
        (cartReplace isValidObjectId [xId] none (some (addTwiceBody xId))).2
        (some (addTwiceBody xId))).2 = some [(xId, 2)] :=
  cart_add_twice_amended isValidObjectId [xId] none xId (by decide) (by decide)
    (by decide) (by decide)

theorem firstMissingId_not_contains (catalog : List String) :
    ∀ entries offId, firstMissingId catalog entries = some offId →
      catalog.contains offId = false := by
  intro entries
  induction entries with
  | nil => intro offId h; simp [firstMissingId] at h
  | cons e rest ih =>
      intro offId h
      obtain ⟨eid, q⟩ := e
      cases eid with
      | absent => exact ih offId (by simpa [firstMissingId] using h)
      | obj oid => exact ih offId (by simpa [firstMissingId] using h)
      | str s =>
          simp only [firstMissingId] at h
          by_cases hcon : catalog.contains s = true
          · rw [if_pos hcon] at h
            exact ih offId h
          · have hconf : catalog.contains s = false := by simpa using hcon
            rw [hconf] at h
            simp at h
            subst h
            exact hconf

theorem validatePost_error_of_firstMissing (isValid : String → Bool)
    (catalog : List String) :
    ∀ entries offId, entries.all (NormEntry.wellFormedId isValid) = true →
      firstMissingId catalog entries = some offId →
      validateEntriesPost isValid catalog entries
        = .error (.notFound ("Item not found: " ++ offId)) := by
  intro entries
  induction entries with
  | nil => intro offId _ h; simp [firstMissingId] at h
  | cons e rest ih =>
      intro offId hwf hmiss
      rw [List.all_cons, Bool.and_eq_true] at hwf
      obtain ⟨hwfe, hwfr⟩ := hwf
      obtain ⟨eid, q⟩ := e
      cases eid with
      | absent => simp [NormEntry.wellFormedId] at hwfe
      | obj oid => simp [NormEntry.wellFormedId] at hwfe
      | str s =>
          simp only [NormEntry.wellFormedId, Bool.and_eq_true] at hwfe
          obtain ⟨hsne, hsvalid⟩ := hwfe
          simp only [firstMissingId] at hmiss
          by_cases hcon : catalog.contains s = true
          · rw [if_pos hcon] at hmiss
            have hrec := ih offId hwfr hmiss
            have hcon2 : s ∈ catalog := by simpa using hcon
            simp [validateEntriesPost, IdField.truthy, IdField.jsString, hsne,
              hsvalid, hcon, hcon2, hrec]
          · have hconf : catalog.contains s = false := by simpa using hcon
            have hconf2 : s ∉ catalog := by simpa using hconf
            rw [hconf] at hmiss
            simp at hmiss
            subst hmiss
            simp [validateEntriesPost, IdField.truthy, IdField.jsString, hsne,
              hsvalid, hconf, hconf2]

theorem validatePut_error_of_firstMissing (isValid : String → Bool)
    (catalog : List String) :
    ∀ entries offId, entries.all (NormEntry.wellFormedId isValid) = true →
      firstMissingId catalog entries = some offId →
      validateEntriesPut isValid catalog entries
        = .error (.notFound ("Item not found: " ++ offId)) := by
  intro entries
  induction entries with
  | nil => intro offId _ h; simp [firstMissingId] at h
  | cons e rest ih =>
      intro offId hwf hmiss
      rw [List.all_cons, Bool.and_eq_true] at hwf
      obtain ⟨hwfe, hwfr⟩ := hwf
      obtain ⟨eid, q⟩ := e
      cases eid with
      | absent => simp [NormEntry.wellFormedId] at hwfe
      | obj oid => simp [NormEntry.wellFormedId] at hwfe
      | str s =>
          simp only [NormEntry.wellFormedId, Bool.and_eq_true] at hwfe
          obtain ⟨hsne, hsvalid⟩ := hwfe
          simp only [firstMissingId] at hmiss
          by_cases hcon : catalog.contains s = true
          · rw [if_pos hcon] at hmiss
            have hrec := ih offId hwfr hmiss
            have hcon2 : s ∈ catalog := by simpa using hcon
            simp [validateEntriesPut, IdField.truthy, IdField.jsString, hsne,
              hsvalid, hcon, hcon2, hrec]
          · have hconf : catalog.contains s = false := by simpa using hcon
            have hconf2 : s ∉ catalog := by simpa using hconf
            rw [hconf] at hmiss
            simp at hmiss
            subst hmiss
            simp [validateEntriesPut, IdField.truthy, IdField.jsString, hsne,
              hsvalid, hconf, hconf2]

/-- C8: a cart add or replace never persists a partial update — on any non-ok
outcome the stored cart is unchanged — and when the batch is well-formed but
references an id missing from the catalog, both handlers stop with NotFound
naming the first offending id, again leaving the cart untouched. -/
theorem cart_validate_all_then_write (isValid : String → Bool)
    (catalog : List String) (cart : Option (List (String × Int)))
    (body : Option CartBody) :
    ((∀ items, (cartAdd isValid catalog cart body).1 ≠ CartResp.ok items) →
        (cartAdd isValid catalog cart body).2 = cart)
    ∧ ((∀ items, (cartReplace isValid catalog cart body).1 ≠ CartResp.ok items) →
        (cartReplace isValid catalog cart body).2 = cart)
    ∧ (∀ offId, (normalizePayload body).all (NormEntry.wellFormedId isValid) = true →
        firstMissingId catalog (normalizePayload body) = some offId →
        catalog.contains offId = false
        ∧ cartAdd isValid catalog cart body
            = (.notFound ("Item not found: " ++ offId), cart)
        ∧ cartReplace isValid catalog cart body
            = (.notFound ("Item not found: " ++ offId), cart)) := by
  refine ⟨?_, ?_, ?_⟩
  · intro hne
    by_cases hraw : (normalizePayload body).isEmpty = true
    · simp [cartAdd, hraw]
    · rcases hv : validateEntriesPost isValid catalog (normalizePayload body)
        with e | norm
      · simp [cartAdd, hraw, hv]
      · exfalso
        rcases cart with _ | c
        · exact hne norm (by simp [cartAdd, hraw, hv])
        · exact hne (mergeItems c norm) (by simp [cartAdd, hraw, hv])
  · intro hne
    rcases hv : validateEntriesPut isValid catalog (normalizePayload body)
      with e | norm
    · simp [cartReplace, hv]
    · exact absurd (by simp [cartReplace, hv] : (cartReplace isValid catalog cart body).1 = CartResp.ok norm) (hne norm)
  · intro offId hwf hmiss
    have hnc := firstMissingId_not_contains catalog (normalizePayload body) offId hmiss
    have hpost := validatePost_error_of_firstMissing isValid catalog
      (normalizePayload body) offId hwf hmiss
    have hput := validatePut_error_of_firstMissing isValid catalog
      (normalizePayload body) offId hwf hmiss
    have hne : (normalizePayload body).isEmpty = false := by
      cases hnp : normalizePayload body with
      | nil => rw [hnp] at hmiss; simp [firstMissingId] at hmiss
      | cons a l => simp [hnp]
    refine ⟨hnc, ?_, ?_⟩
    · simp [cartAdd, hne, hpost]
    · simp [cartReplace, hput]

/-- The C8 witness payload: a single entry with a valid but nonexistent id. -/
def ghostBody : CartBody :=
  { items := none,
    self := { itemId := .str "bbbbbbbbbbbb", item := .absent, mongoId := .absent,
              quantity := .jnum 1, qty := .absent } }

/-- Witness for C8: catalog ["cccccccccccc"], cart holding that item, batch
referencing the absent id "bbbbbbbbbbbb": NotFound naming it, cart unchanged. -/
theorem cart_validate_witness :
    List.contains ["cccccccccccc"] "bbbbbbbbbbbb" = false
    ∧ cartAdd isValidObjectId ["cccccccccccc"] (some [("cccccccccccc", 1)])
        (some ghostBody)
        = (.notFound ("Item not found: " ++ "bbbbbbbbbbbb"), some [("cccccccccccc", 1)])
    ∧ cartReplace isValidObjectId ["cccccccccccc"] (some [("cccccccccccc", 1)])
        (some ghostBody)
        = (.notFound ("Item not found: " ++ "bbbbbbbbbbbb"), some [("cccccccccccc", 1)]) :=
  (cart_validate_all_then_write isValidObjectId ["cccccccccccc"]
    (some [("cccccccccccc", 1)]) (some ghostBody)).2.2
    "bbbbbbbbbbbb" (by decide) (by decide)

end Sweetify
